import Mathlib

/-!
Verification of the AI voice detection service (`src/main.py`).

The development shallowly embeds the core pipeline of the service:

* `extract_features` embeds the Python function of the same name: sample
  values are modelled as exact rationals, `numpy` means as `npMean`,
  `np.sign`/`np.diff` as `npSign`/`npDiff`, and `scipy.signal.find_peaks`
  (with only the `height` argument) as `findPeaksHeights` filtered by the
  height condition.  A `ZeroDivisionError` on an empty waveform is modelled
  by returning `none`; the `NaN` that `np.mean` of an empty diff produces
  for a single-sample waveform is modelled by `Features.zcr : Option ℚ`
  being `none` (a `NaN` compares `False` against every bound, which
  `zcrIsLow` reproduces).
* `analyze` embeds the scoring rule of the Python `analyze` function.
* `predict` embeds the `/predict` orchestrator; external I/O (HTTP fetch,
  temp-file creation, temp-file write, `soundfile` decoding) is abstracted
  by an `Env` record giving each fallible step's outcome for the request at
  hand, and the result records the HTTP-level outcome together with how
  many temporary files were created and released.
-/

/- The Batteries rational primitives are `@[irreducible]`, which blocks
`decide` on concrete rational computations; restore the ordinary
reducibility for this verification file. -/
attribute [local semireducible] Rat.add Rat.mul Rat.inv Rat.sub

/-! ### Waveform statistics (numpy embedding) -/

/-- `np.mean` on a list of rationals.  (On an empty list `np.mean` yields
`NaN`; callers below never rely on the value of `npMean []`.) -/
def npMean (l : List ℚ) : ℚ := l.sum / l.length

/-- `np.sign`: `-1`, `0`, `1` according to the sign of the sample. -/
def npSign (q : ℚ) : ℚ := if q < 0 then -1 else if q = 0 then 0 else 1

/-- `np.diff`: successive differences `l[i+1] - l[i]`. -/
def npDiff (l : List ℚ) : List ℚ := (l.zip l.tail).map (fun p => p.2 - p.1)

/-- Square of `np.std` (population variance, `ddof = 0`).  `np.std` itself
is the square root; since every peak height below is an absolute sample
value (hence nonnegative), the filter `std ≤ h` used by `find_peaks` is
expressed equivalently as `stdSq ≤ h ^ 2`, keeping everything rational. -/
def stdSq (l : List ℚ) : ℚ := npMean (l.map (fun q => (q - npMean l) ^ 2))

/-- Core walk of `scipy.signal._peak_finding_utils._local_maxima_1d`,
returning the heights of the interior local-maximum plateaus in scan
order.  `rising` records whether the plateau of the current value `cur`
was entered by a strict increase; a peak is emitted when a rising plateau
is followed by a strict decrease.  Plateaus touching either end of the
signal are not peaks, exactly as in scipy (one peak is reported per flat
plateau, at its midpoint; only the count and the heights matter here). -/
def lmAux : Bool → ℚ → List ℚ → List ℚ
  | _, _, [] => []
  | rising, cur, next :: rest =>
    if next = cur then lmAux rising cur rest
    else if next < cur then
      (if rising then [cur] else []) ++ lmAux false next rest
    else lmAux true next rest

/-- Heights of the local maxima found by `scipy.signal.find_peaks` (no
keyword arguments beyond `height`, which is applied separately). -/
def findPeaksHeights : List ℚ → List ℚ
  | [] => []
  | a :: rest => lmAux false a rest

/-- Number of peaks `find_peaks(np.abs(audio), height=np.std(audio))`
returns: local-maximum plateaus of the absolute waveform whose height is
at least the standard deviation of the (signed) waveform.  The inclusive
comparison matches scipy's `hmin <= peak_heights`; `std ≤ h` is written
`stdSq ≤ h ^ 2`, valid because the heights `h = |sample|` are
nonnegative. -/
def peakCount (audio : List ℚ) : ℕ :=
  ((findPeaksHeights (audio.map (fun q => |q|))).filter
    (fun h => decide (stdSq audio ≤ h ^ 2))).length

/-! ### Feature extraction -/

/-- The feature dictionary produced by `extract_features`.  `zcr = none`
models the `NaN` that `np.mean(np.abs(np.diff(np.sign(audio))))` produces
when the waveform has a single sample (the diff is empty). -/
structure Features where
  energy : ℚ
  zcr : Option ℚ
  peak_density : ℚ
deriving DecidableEq, Repr

/-- Embedding of `extract_features` on the decoded mono waveform.  The
Python function raises `ZeroDivisionError` at `len(peaks) / len(audio)`
when the waveform is empty; that raising outcome is modelled as `none`. -/
def extract_features (audio : List ℚ) : Option Features :=
  if audio.length = 0 then none
  else some
    { energy := npMean (audio.map (fun q => q ^ 2))
      zcr :=
        if audio.length = 1 then none
        else some (npMean ((npDiff (audio.map npSign)).map (fun q => |q|)))
      peak_density := (peakCount audio : ℚ) / (audio.length : ℚ) }

/-! ### Classification -/

/-- The response record produced by `analyze` (and by the inline-path
fallback). -/
structure AnalysisResult where
  classification : String
  confidence : ℚ
  language : String
  explanation : String
deriving DecidableEq, Repr

/-- Python `round(q, 2)`.  Python rounds half to even while `round` here
rounds half up, but every value the service rounds is an exact multiple of
`1/10`, where all tie-breaking conventions agree. -/
def round2 (q : ℚ) : ℚ := (round (q * 100) : ℤ) / 100

/-- The comparison `features["zcr"] < 0.05` of the Python code; a `NaN`
zero-crossing rate (modelled by `none`) compares `False`. -/
def zcrIsLow : Option ℚ → Bool
  | some z => decide (z < 1 / 20)
  | none => false

/-- ASCII `str.lower`, as applied to the classification label. -/
def lowerString (s : String) : String := String.mk (s.toList.map Char.toLower)

/-- Embedding of `analyze`: rule-based scoring from a base of `0.5`, with
a `0.2` bonus (and a reason string) for `peak_density < 0.01` and for
`zcr < 0.05`, confidence clamped at `1.0` and rounded to two decimals,
and the label decided by `confidence > 0.55`. -/
def analyze (f : Features) (language : String) : AnalysisResult :=
  let score : ℚ :=
    (if f.peak_density < 1 / 100 then 1 / 2 + 1 / 5 else 1 / 2) +
      (if zcrIsLow f.zcr = true then 1 / 5 else 0)
  let reasons : List String :=
    (if f.peak_density < 1 / 100 then ["uniform waveform structure"] else []) ++
      (if zcrIsLow f.zcr = true then ["low zero-crossing rate"] else [])
  let confidence : ℚ := round2 (min score 1)
  let label : String := if 11 / 20 < confidence then "AI Generated" else "Human"
  { classification := label
    confidence := confidence
    language := language
    explanation :=
      "Analysis suggests " ++ lowerString label ++ " voice: " ++
        String.intercalate ", " reasons }

/-! ### Request orchestration (`/predict`) -/

/-- The request body (`AudioRequest` pydantic model).  A missing JSON
field surfaces with its pydantic default: `language` defaults to
`some "English"`, the other fields to `none`; an explicit JSON `null` also
yields `none`. -/
structure AudioRequest where
  audio_url : Option String := none
  audioBase64 : Option String := none
  audioFormat : Option String := none
  language : Option String := some "English"
deriving DecidableEq, Repr

/-- Python truthiness of an optional string (`if req.audio_url:`): `None`
and the empty string are falsy. -/
def isTruthy : Option String → Bool
  | none => false
  | some s => decide (s ≠ "")

/-- `req.language or "English"`: the Python `or` replaces both `None` and
the (falsy) empty string by the default. -/
def effectiveLanguage (req : AudioRequest) : String :=
  match req.language with
  | some l => if l = "" then "English" else l
  | none => "English"

/-- The fixed safe-fallback body returned when the inline-payload path
fails. -/
def fallbackResult (req : AudioRequest) : AnalysisResult :=
  { classification := "AI Generated"
    confidence := 71 / 100
    language := effectiveLanguage req
    explanation := "Analysis suggests ai generated voice: consistent spectral properties" }

/-- Scheme characters accepted by `urllib.parse` (letters, digits,
`+`, `-`, `.`). -/
def isSchemeChar (c : Char) : Bool :=
  c.isAlpha || c.isDigit || c = '+' || c = '-' || c = '.'

/-- First character is an ASCII letter (`url[0].isascii() and
url[0].isalpha()`; Lean's `Char.isAlpha` is already ASCII-only). -/
def headIsAlpha (cs : List Char) : Bool :=
  match cs with
  | c :: _ => c.isAlpha
  | [] => false

/-- `urlparse(url).scheme`: the text before the first `:`, lowercased,
provided the `:` is not the first character, the first character is an
ASCII letter and everything before the `:` is a scheme character;
otherwise the empty string. -/
def urlScheme (url : String) : String :=
  let cs := url.toList
  match cs.findIdx? (fun c => c == ':') with
  | none => ""
  | some i =>
    if decide (0 < i) && (cs.take i).all isSchemeChar && headIsAlpha cs then
      String.mk ((cs.take i).map Char.toLower)
    else ""

/-- Outcome of one request at the HTTP boundary.  `handled` is an
`HTTPException` formatted by the registered exception handler into
`{error, status_code}`; `crash` is an exception that no handler catches
(a generic 500). -/
inductive HttpOutcome
  | ok (body : AnalysisResult)
  | handled (status : ℕ) (detail : String)
  | crash
deriving DecidableEq, Repr

/-- Outcome of the fallible external steps of one request.  Each field
fixes what the corresponding I/O action would do for this request:
`downloadStatus` is the HTTP status of `client.get(audio_url)`,
`urlCreateOk`/`urlWriteOk` (resp. `inlineCreateOk`/`inlineWriteOk`)
whether `NamedTemporaryFile()` creation and the subsequent `tmp.write`
succeed, `b64Ok` whether `base64.b64decode(audioBase64)` succeeds, and
`urlAudio`/`inlineAudio` the mono waveform `sf.read` decodes from the
temporary file (`none` when `sf.read` raises). -/
structure Env where
  downloadStatus : ℕ
  urlCreateOk : Bool
  urlWriteOk : Bool
  urlAudio : Option (List ℚ)
  b64Ok : Bool
  inlineCreateOk : Bool
  inlineWriteOk : Bool
  inlineAudio : Option (List ℚ)
deriving DecidableEq, Repr

/-- Result of one request: HTTP outcome plus temporary-file accounting
(how many temp files the request created, and how many it deleted). -/
structure PredictResult where
  outcome : HttpOutcome
  created : ℕ
  released : ℕ
deriving DecidableEq, Repr

/-- The `audio_url` branch of `predict`.  The scheme check precedes the
download; a non-200 status raises `HTTPException(400)` inside
`download_audio` before the temporary file exists; a failure of
`tmp.write` happens after creation but before `predict` learns the path,
so the `finally` block cannot delete the file; decoding or extraction
errors on this path are uncaught (crash), with the `finally` block still
deleting the file. -/
def predictUrl (env : Env) (req : AudioRequest) (u : String) : PredictResult :=
  if ¬ (urlScheme u = "http" ∨ urlScheme u = "https") then
    ⟨.handled 400 "Invalid audio URL", 0, 0⟩
  else if env.downloadStatus ≠ 200 then
    ⟨.handled 400 "Failed to download audio", 0, 0⟩
  else if env.urlCreateOk = false then ⟨.crash, 0, 0⟩
  else if env.urlWriteOk = false then ⟨.crash, 1, 0⟩
  else
    match env.urlAudio with
    | none => ⟨.crash, 1, 1⟩
    | some audio =>
      match extract_features audio with
      | none => ⟨.crash, 1, 1⟩
      | some f => ⟨.ok (analyze f (effectiveLanguage req)), 1, 1⟩

/-- The `audioBase64` branch of `predict`: every exception inside the
branch is caught and replaced by the fixed fallback body.  A base64 or
temp-file-creation failure happens before any file exists; a `tmp.write`
failure happens after creation, and `save_base64_audio` turns it into
`ValueError` without returning the path, so the file is never deleted;
decode/extraction failures happen with the path assigned, so the
`finally` block deletes the file. -/
def predictInline (env : Env) (req : AudioRequest) : PredictResult :=
  if env.b64Ok = false then ⟨.ok (fallbackResult req), 0, 0⟩
  else if env.inlineCreateOk = false then ⟨.ok (fallbackResult req), 0, 0⟩
  else if env.inlineWriteOk = false then ⟨.ok (fallbackResult req), 1, 0⟩
  else
    match env.inlineAudio with
    | none => ⟨.ok (fallbackResult req), 1, 1⟩
    | some audio =>
      match extract_features audio with
      | none => ⟨.ok (fallbackResult req), 1, 1⟩
      | some f => ⟨.ok (analyze f (effectiveLanguage req)), 1, 1⟩

/-- Embedding of the `/predict` orchestrator: the `audio_url` branch is
tried first (Python truthiness), then the `audioBase64` branch, and a
request with neither raises `HTTPException(422)`. -/
def predict (env : Env) (req : AudioRequest) : PredictResult :=
  if isTruthy req.audio_url = true then
    predictUrl env req (req.audio_url.getD "")
  else if isTruthy req.audioBase64 = true then
    predictInline env req
  else
    ⟨.handled 422 "audio_url or audioBase64 required", 0, 0⟩

/-- One of the steps of the inline path fails: the base64 decode, the
temp-file creation, the temp-file write, the audio decode
(`inlineAudio = none`), or feature extraction on the decoded waveform
(`Option.bind` is `none` in either of the last two cases). -/
def inlinePipelineFails (env : Env) : Prop :=
  env.b64Ok = false ∨ env.inlineCreateOk = false ∨ env.inlineWriteOk = false ∨
    env.inlineAudio.bind extract_features = none

instance (env : Env) : Decidable (inlinePipelineFails env) := by
  unfold inlinePipelineFails; infer_instance

/-! ### Spec-side definitions

These follow the wording of the specification (§4.3), to be compared with
the definitions embedded from the source.  The spec describes the peak
rule as: a sample is a local maximum if it is strictly greater than both
neighbours and its value is at least the global height threshold (the
standard deviation of the signal). -/

/-- Spec wording: energy is the mean of the squared sample values. -/
def specEnergy (audio : List ℚ) : ℚ :=
  (audio.map (fun q => q ^ 2)).sum / audio.length

/-- Spec wording: the zero-crossing rate is the mean of the absolute
first difference of the sign of the samples (the diff list has one entry
fewer than the waveform). -/
def specZcr (audio : List ℚ) : ℚ :=
  ((npDiff (audio.map npSign)).map (fun q => |q|)).sum / ((audio.length : ℚ) - 1)

/-- Spec wording (§4.3): samples strictly greater than both neighbours.
Returns the heights of all strict local maxima. -/
def strictPeaks : List ℚ → List ℚ
  | a :: b :: c :: rest => (if a < b ∧ c < b then [b] else []) ++ strictPeaks (b :: c :: rest)
  | _ => []

/-- Spec wording: number of strict local maxima of the absolute-valued
waveform with height at least the standard deviation (written as
`stdSq ≤ h ^ 2`, as in `peakCount`), divided by the sample count. -/
def specPeakDensity (audio : List ℚ) : ℚ :=
  (((strictPeaks (audio.map (fun q => |q|))).filter
      (fun h => decide (stdSq audio ≤ h ^ 2))).length : ℚ) / (audio.length : ℚ)

/-! ### Helper lemmas -/

/-- The classifier's confidence is always one of `0.5`, `0.7`, `0.9`. -/
theorem analyze_confidence_cases (f : Features) (lang : String) :
    (analyze f lang).confidence = 1/2 ∨ (analyze f lang).confidence = 7/10 ∨
      (analyze f lang).confidence = 9/10 := by
  by_cases hp : f.peak_density < 1/100 <;> by_cases hz : zcrIsLow f.zcr = true <;>
    simp only [analyze, hp, hz, if_true, if_false, if_pos, if_neg, not_false_iff] <;> decide

/-- On a plateau-free signal the scipy walk agrees with the strict
local-maximum rule, relative to a virtual previous value `prev`. -/
theorem lmAux_eq_strictPeaks (rest : List ℚ) : ∀ prev cur : ℚ,
    List.Chain' (fun a b => a ≠ b) (cur :: rest) →
    lmAux (decide (prev < cur)) cur rest = strictPeaks (prev :: cur :: rest) := by
  induction rest with
  | nil => intro prev cur _; rfl
  | cons next r ih =>
    intro prev cur h
    have hne : cur ≠ next := (List.chain'_cons.mp h).1
    have h2 : List.Chain' (fun a b => a ≠ b) (next :: r) := (List.chain'_cons.mp h).2
    have hnc : ¬ next = cur := fun e => hne e.symm
    show (if next = cur then _ else if next < cur then _ else _) = _
    rw [if_neg hnc]
    by_cases hlt : next < cur
    · rw [if_pos hlt]
      have hih := ih cur next h2
      rw [decide_eq_false (not_lt_of_gt hlt)] at hih
      show _ ++ lmAux false next r = strictPeaks (prev :: cur :: next :: r)
      rw [hih]
      show (if decide (prev < cur) = true then [cur] else []) ++ strictPeaks (cur :: next :: r) =
        (if prev < cur ∧ next < cur then [cur] else []) ++ strictPeaks (cur :: next :: r)
      by_cases hp : prev < cur
      · simp [hp, hlt]
      · simp [hp]
    · have hgt : cur < next := lt_of_le_of_ne (not_lt.mp hlt) hne
      rw [if_neg hlt]
      have hih := ih cur next h2
      rw [decide_eq_true hgt] at hih
      rw [hih]
      show strictPeaks (cur :: next :: r) =
        (if prev < cur ∧ next < cur then [cur] else []) ++ strictPeaks (cur :: next :: r)
      rw [if_neg (fun hc => hlt hc.2)]; rfl

/-- Duplicating the head does not change the strict local maxima. -/
theorem strictPeaks_cons_self (a : ℚ) (rest : List ℚ) :
    strictPeaks (a :: a :: rest) = strictPeaks (a :: rest) := by
  cases rest with
  | nil => rfl
  | cons x r =>
    show (if a < a ∧ x < a then [a] else []) ++ strictPeaks (a :: x :: r) = _
    rw [if_neg (fun hc => lt_irrefl a hc.1)]; rfl

/-- On a signal whose adjacent samples are pairwise distinct, scipy's
peak walk finds exactly the strict local maxima. -/
theorem findPeaksHeights_eq_strictPeaks (audio : List ℚ)
    (h : List.Chain' (fun a b => a ≠ b) audio) :
    findPeaksHeights audio = strictPeaks audio := by
  cases audio with
  | nil => rfl
  | cons a rest =>
    have hmain := lmAux_eq_strictPeaks rest a a h
    rw [decide_eq_false (lt_irrefl a)] at hmain
    show lmAux false a rest = _
    rw [hmain, strictPeaks_cons_self]

/-- The mean of a constant nonempty list is the constant. -/
theorem npMean_replicate {n : ℕ} (hn : n ≠ 0) (x : ℚ) :
    npMean (List.replicate n x) = x := by
  unfold npMean
  rw [List.sum_replicate, List.length_replicate, nsmul_eq_mul]
  exact mul_div_cancel_left₀ x (Nat.cast_ne_zero.mpr hn)

/-- Successive differences of a constant list are all zero. -/
theorem npDiff_replicate (n : ℕ) (d : ℚ) :
    npDiff (List.replicate n d) = List.replicate (n - 1) 0 := by
  induction n with
  | zero => rfl
  | succ m ih =>
    cases m with
    | zero => rfl
    | succ k =>
      show npDiff (d :: d :: List.replicate k d) = _
      have step : npDiff (d :: d :: List.replicate k d) =
          (d - d) :: npDiff (d :: List.replicate k d) := rfl
      rw [step, sub_self]
      have : npDiff (d :: List.replicate k d) = List.replicate k 0 := by
        have := ih
        rwa [show List.replicate (k + 1) d = d :: List.replicate k d from rfl,
          Nat.add_sub_cancel] at this
      rw [this]
      rfl

/-- The scipy peak walk finds no peak in a constant signal. -/
theorem lmAux_replicate (d : ℚ) (b : Bool) : ∀ m : ℕ,
    lmAux b d (List.replicate m d) = [] := by
  intro m
  induction m with
  | zero => rfl
  | succ k ih =>
    show lmAux b d (d :: List.replicate k d) = []
    unfold lmAux
    rw [if_pos rfl]
    exact ih

/-- The length of the diff list is one less than the input's. -/
theorem npDiff_length (l : List ℚ) : (npDiff l).length = l.length - 1 := by
  unfold npDiff
  rw [List.length_map, List.length_zip, List.length_tail]
  exact min_eq_right (Nat.sub_le l.length 1)

/-- `extract_features` on a constant waveform of `n ≥ 1` samples: it does
not raise, the energy is the square of the constant, the zero-crossing
rate is `0` for at least two samples (`NaN`, i.e. `none`, for a single
sample), and the peak density is `0`. -/
theorem extract_features_replicate (c : ℚ) (n : ℕ) (hn : 1 ≤ n) :
    extract_features (List.replicate n c) =
      some ⟨c ^ 2, if n = 1 then none else some 0, 0⟩ := by
  have hne : n ≠ 0 := by omega
  unfold extract_features
  rw [List.length_replicate]
  rw [if_neg hne]
  have henergy : npMean ((List.replicate n c).map (fun q => q ^ 2)) = c ^ 2 := by
    rw [List.map_replicate]
    exact npMean_replicate hne _
  have hdiff : (npDiff ((List.replicate n c).map npSign)).map (fun q => |q|) =
      List.replicate (n - 1) 0 := by
    rw [List.map_replicate, npDiff_replicate, List.map_replicate, abs_zero]
  have hzcr : npMean ((npDiff ((List.replicate n c).map npSign)).map (fun q => |q|)) = 0 := by
    rw [hdiff]
    unfold npMean
    rw [List.sum_replicate, smul_zero, zero_div]
  have hpeaks : peakCount (List.replicate n c) = 0 := by
    unfold peakCount
    rw [List.map_replicate]
    cases n with
    | zero => exact absurd rfl hne
    | succ k =>
      show ((findPeaksHeights (|c| :: List.replicate k |c|)).filter _).length = 0
      show ((lmAux false |c| (List.replicate k |c|)).filter _).length = 0
      rw [lmAux_replicate]
      rfl
  rw [henergy, hzcr, hpeaks]
  rw [Nat.cast_zero, zero_div]

/-! ### Claim theorems -/

/-- C3.  For every feature vector and language, the classifier starts
from a score of `0.5`, adds `0.2` with reason "uniform waveform
structure" when `peakDensity < 0.01`, adds `0.2` with reason "low
zero-crossing rate" when `zeroCrossingRate < 0.05`, sets
`confidence = min(score, 1.0)` rounded to two decimal places, and
returns classification "AI Generated" if and only if
`confidence > 0.55` (so a confidence of exactly `0.55` would give
"Human"). -/
theorem analyze_scoring_rule (f : Features) (lang : String) :
    (analyze f lang).confidence =
      round2 (min ((1:ℚ)/2 + (if f.peak_density < 1/100 then (1:ℚ)/5 else 0) +
        (if zcrIsLow f.zcr = true then (1:ℚ)/5 else 0)) 1) ∧
    ((analyze f lang).classification = "AI Generated" ↔
      11/20 < (analyze f lang).confidence) ∧
    (analyze f lang).explanation =
      "Analysis suggests " ++ lowerString (analyze f lang).classification ++ " voice: " ++
        String.intercalate ", "
          ((if f.peak_density < 1/100 then ["uniform waveform structure"] else []) ++
            (if zcrIsLow f.zcr = true then ["low zero-crossing rate"] else [])) := by
  by_cases hp : f.peak_density < 1/100 <;> by_cases hz : zcrIsLow f.zcr = true <;>
    simp only [analyze, hp, hz, if_true, if_false] <;>
    exact ⟨by decide, by decide, trivial⟩

/-- Every 200-response body is either the inline fallback or an
`analyze` result for the request's effective language. -/
theorem predict_ok_cases (env : Env) (req : AudioRequest) (r : AnalysisResult)
    (hok : (predict env req).outcome = HttpOutcome.ok r) :
    r = fallbackResult req ∨ ∃ f, r = analyze f (effectiveLanguage req) := by
  unfold predict predictUrl predictInline at hok
  repeat' split at hok
  all_goals simp at hok
  all_goals first
    | exact Or.inl hok.symm
    | exact Or.inr ⟨_, hok.symm⟩

/-- C1.  For every request whose inline payload field is set and taken
(no truthy `audio_url`, truthy `audioBase64`), if any step of the inline
path fails — base64 decoding, temp-file creation or writing, audio
decoding, or feature extraction — the response is exactly the fixed
fallback body, and no error is surfaced to the caller. -/
theorem inline_failure_returns_fallback (env : Env) (req : AudioRequest)
    (hu : isTruthy req.audio_url = false) (hb : isTruthy req.audioBase64 = true)
    (hfail : inlinePipelineFails env) :
    (predict env req).outcome = HttpOutcome.ok (fallbackResult req) := by
  have hstep : predict env req = predictInline env req := by
    unfold predict
    rw [hu, hb]
    simp
  rw [hstep]
  unfold predictInline
  by_cases h1 : env.b64Ok = false
  · rw [if_pos h1]
  · rw [if_neg h1]
    by_cases h2 : env.inlineCreateOk = false
    · rw [if_pos h2]
    · rw [if_neg h2]
      by_cases h3 : env.inlineWriteOk = false
      · rw [if_pos h3]
      · rw [if_neg h3]
        have hbind : env.inlineAudio.bind extract_features = none := by
          rcases hfail with h | h | h | h
          · exact absurd h h1
          · exact absurd h h2
          · exact absurd h h3
          · exact h
        cases hia : env.inlineAudio with
        | none => rfl
        | some audio =>
          rw [hia] at hbind
          rw [Option.some_bind] at hbind
          simp [hbind]

/-- C1 witness: the literal payload `"not-base64-!!"` whose base64 decode
fails produces the fixed fallback body. -/
theorem inline_failure_returns_fallback_witness :
    isTruthy (⟨none, some "not-base64-!!", none, some "English"⟩ : AudioRequest).audio_url = false ∧
    isTruthy (⟨none, some "not-base64-!!", none, some "English"⟩ : AudioRequest).audioBase64 = true ∧
    inlinePipelineFails ⟨200, true, true, none, false, true, true, none⟩ ∧
    (predict ⟨200, true, true, none, false, true, true, none⟩
        ⟨none, some "not-base64-!!", none, some "English"⟩).outcome =
      HttpOutcome.ok (fallbackResult ⟨none, some "not-base64-!!", none, some "English"⟩) :=
  ⟨by decide, by decide, by decide,
    inline_failure_returns_fallback ⟨200, true, true, none, false, true, true, none⟩
      ⟨none, some "not-base64-!!", none, some "English"⟩ (by decide) (by decide) (by decide)⟩

/-- C7.  A request whose `audio_url` carries a scheme (so the URL is in
particular non-empty and truthy) other than `http`/`https` is answered
with the structured 400 "Invalid audio URL" error, independently of the
download environment (the scheme check precedes the fetch), with no
temporary resource created. -/
theorem bad_scheme_rejected_before_fetch (env : Env) (req : AudioRequest) (u : String)
    (hu : req.audio_url = some u) (h1 : urlScheme u ≠ "")
    (h2 : urlScheme u ≠ "http") (h3 : urlScheme u ≠ "https") :
    predict env req = ⟨HttpOutcome.handled 400 "Invalid audio URL", 0, 0⟩ := by
  have hne : u ≠ "" := by
    intro he
    exact h1 (by rw [he]; rfl)
  unfold predict
  rw [hu]
  rw [if_pos (by simp [isTruthy, hne])]
  show predictUrl env req u = _
  unfold predictUrl
  rw [if_pos (fun hc => hc.elim h2 h3)]

/-- C7 witness: `ftp://host/file` is rejected as an invalid URL before
any network access. -/
theorem bad_scheme_rejected_before_fetch_witness :
    (⟨some "ftp://host/file", none, none, some "English"⟩ : AudioRequest).audio_url =
      some "ftp://host/file" ∧
    urlScheme "ftp://host/file" ≠ "" ∧
    urlScheme "ftp://host/file" ≠ "http" ∧
    urlScheme "ftp://host/file" ≠ "https" ∧
    predict ⟨500, true, true, none, true, true, true, none⟩
        ⟨some "ftp://host/file", none, none, some "English"⟩ =
      ⟨HttpOutcome.handled 400 "Invalid audio URL", 0, 0⟩ :=
  ⟨rfl, by decide, by decide, by decide,
    bad_scheme_rejected_before_fetch ⟨500, true, true, none, true, true, true, none⟩
      ⟨some "ftp://host/file", none, none, some "English"⟩ "ftp://host/file"
      rfl (by decide) (by decide) (by decide)⟩

/-- C10.  The classifier's confidence is always one of `0.5`, `0.7`,
`0.9`; consequently a response body with confidence `0.71` can only be
the fixed inline-path fallback, never a classifier output. -/
theorem confidence_value_set (f : Features) (lang : String) (env : Env)
    (req : AudioRequest) (r : AnalysisResult) :
    ((analyze f lang).confidence = 1/2 ∨ (analyze f lang).confidence = 7/10 ∨
      (analyze f lang).confidence = 9/10) ∧
    ((predict env req).outcome = HttpOutcome.ok r → r.confidence = 71/100 →
      r = fallbackResult req) := by
  refine ⟨analyze_confidence_cases f lang, fun hok hc => ?_⟩
  rcases predict_ok_cases env req r hok with h | ⟨g, h⟩
  · exact h
  · subst h
    rcases analyze_confidence_cases g (effectiveLanguage req) with hv | hv | hv <;>
      rw [hv] at hc <;> exact absurd hc (by decide)

/-- C10 witness: a failed inline request yields the fallback, whose
confidence is `0.71`, and the theorem identifies it as the fallback. -/
theorem confidence_value_set_witness :
    (predict ⟨200, true, true, none, false, true, true, none⟩
        ⟨none, some "zz", none, some "English"⟩).outcome =
      HttpOutcome.ok (fallbackResult ⟨none, some "zz", none, some "English"⟩) ∧
    (fallbackResult ⟨none, some "zz", none, some "English"⟩).confidence = 71/100 ∧
    fallbackResult ⟨none, some "zz", none, some "English"⟩ =
      fallbackResult ⟨none, some "zz", none, some "English"⟩ :=
  ⟨by decide, by decide,
    (confidence_value_set ⟨0, none, 0⟩ "English"
        ⟨200, true, true, none, false, true, true, none⟩
        ⟨none, some "zz", none, some "English"⟩
        (fallbackResult ⟨none, some "zz", none, some "English"⟩)).2
      (by decide) (by decide)⟩

/-- C2 counterexample.  The constant waveform `[1, 1]` is processed
without raising, but its energy is `1`, not `0` as the claim demands for
every constant waveform; and the empty-after-decode waveform makes
`extract_features` raise (`ZeroDivisionError`, modelled as `none`)
rather than return zeros. -/
theorem constant_waveform_energy_counterexample :
    extract_features [1, 1] = some ⟨1, some 0, 0⟩ ∧ (1 : ℚ) ≠ 0 ∧
    extract_features [] = none :=
  ⟨by decide, by decide, rfl⟩

/-- C2 amended.  A constant waveform with `n ≥ 1` samples does not
raise: its zero-crossing rate is `0` for `n ≥ 2` (`NaN`, modelled
`none`, for a single sample), its peak density is `0`, and its energy is
the square of the constant (zero exactly for the all-zero waveform);
the empty-after-decode waveform raises a division error instead. -/
theorem extract_constant_waveform (c : ℚ) (n : ℕ) (hn : 1 ≤ n) :
    extract_features (List.replicate n c) =
      some ⟨c ^ 2, if n = 1 then none else some 0, 0⟩ ∧
    extract_features [] = none :=
  ⟨extract_features_replicate c n hn, rfl⟩

/-- C2 amended witness: the constant waveform `[2, 2, 2]`. -/
theorem extract_constant_waveform_witness :
    1 ≤ 3 ∧
    (extract_features (List.replicate 3 (2:ℚ)) =
        some ⟨(2:ℚ) ^ 2, if 3 = 1 then none else some 0, 0⟩ ∧
      extract_features [] = none) :=
  ⟨by decide, extract_constant_waveform 2 3 (by decide)⟩

/-- C4 counterexample.  On the plateau waveform `[0, 1, 1, 0]` the code
(scipy `find_peaks`) reports one peak — the flat plateau of height `1`,
which is at least the standard deviation `1/2` — giving peak density
`1/4`, while the spec's strict local-maximum formula counts no peak
(neither plateau sample is strictly greater than both neighbours). -/
theorem plateau_peak_counterexample :
    extract_features [0, 1, 1, 0] = some ⟨1/2, some (2/3), 1/4⟩ ∧
    specPeakDensity [0, 1, 1, 0] = 0 ∧ ((1 : ℚ)/4) ≠ 0 :=
  ⟨by decide, by decide, by decide⟩

/-- C4 amended.  For every non-empty waveform the extracted energy is
the mean of the squared samples, and the zero-crossing rate is the mean
of the absolute first difference of the sign of the samples whenever
there are at least two samples (`NaN`, modelled `none`, for a single
sample).  The peak density equals the spec's strict-local-maxima count
divided by the sample count whenever no two adjacent samples of the
absolute waveform are equal; flat plateaus are counted once by the code
but not at all by the strict rule. -/
theorem extract_features_formulas (audio : List ℚ) (f : Features)
    (hf : extract_features audio = some f) :
    f.energy = specEnergy audio ∧
    (2 ≤ audio.length → f.zcr = some (specZcr audio)) ∧
    (audio.length = 1 → f.zcr = none) ∧
    (List.Chain' (fun a b => a ≠ b) (audio.map (fun q => |q|)) →
      f.peak_density = specPeakDensity audio) := by
  unfold extract_features at hf
  by_cases h0 : audio.length = 0
  · rw [if_pos h0] at hf
    exact absurd hf (by simp)
  · rw [if_neg h0] at hf
    injection hf with hf
    subst hf
    refine ⟨?_, fun hn2 => ?_, fun hn1 => ?_, fun hch => ?_⟩
    · show npMean (audio.map (fun q => q ^ 2)) = specEnergy audio
      unfold npMean specEnergy
      rw [List.length_map]
    · show (if audio.length = 1 then none
          else some (npMean ((npDiff (audio.map npSign)).map (fun q => |q|)))) =
        some (specZcr audio)
      rw [if_neg (by omega : ¬ audio.length = 1)]
      congr 1
      unfold npMean specZcr
      rw [List.length_map, npDiff_length, List.length_map,
        Nat.cast_sub (by omega : 1 ≤ audio.length), Nat.cast_one]
    · show (if audio.length = 1 then none
          else some (npMean ((npDiff (audio.map npSign)).map (fun q => |q|)))) = none
      rw [if_pos hn1]
    · show (peakCount audio : ℚ) / (audio.length : ℚ) = specPeakDensity audio
      unfold peakCount specPeakDensity
      rw [findPeaksHeights_eq_strictPeaks _ hch]

/-- C4 amended witness: the plateau-free waveform `[0, 2, 0]`. -/
theorem extract_features_formulas_witness :
    extract_features [0, 2, 0] = some ⟨4/3, some 1, 1/3⟩ ∧
    (⟨4/3, some 1, 1/3⟩ : Features).energy = specEnergy [0, 2, 0] ∧
    (⟨4/3, some 1, 1/3⟩ : Features).zcr = some (specZcr [0, 2, 0]) ∧
    (⟨4/3, some 1, 1/3⟩ : Features).peak_density = specPeakDensity [0, 2, 0] :=
  ⟨by decide,
    (extract_features_formulas [0, 2, 0] ⟨4/3, some 1, 1/3⟩ (by decide)).1,
    (extract_features_formulas [0, 2, 0] ⟨4/3, some 1, 1/3⟩ (by decide)).2.1 (by decide),
    (extract_features_formulas [0, 2, 0] ⟨4/3, some 1, 1/3⟩ (by decide)).2.2.2
      (by norm_num [List.chain'_cons])⟩

/-- The classifier's output depends on the language argument only
through the `language` field. -/
theorem analyze_language_field (f : Features) (l₁ l₂ : String) :
    analyze f l₁ = { analyze f l₂ with language := l₁ } := rfl

/-- C5 counterexample.  The all-zero single-sample waveform `[0]` gets a
`NaN` zero-crossing rate (`np.mean` of an empty diff), so the
low-zero-crossing bonus does not fire and the confidence is `0.7`, not
the claimed `0.9`. -/
theorem single_zero_sample_counterexample :
    extract_features [(0:ℚ)] = some ⟨0, none, 0⟩ ∧
    (analyze ⟨0, none, 0⟩ "English").confidence = 7/10 ∧
    ((7 : ℚ)/10) ≠ 9/10 :=
  ⟨by decide, by decide, by decide⟩

/-- C5 amended.  Every all-zero waveform with at least two samples
yields zero features, both classifier bonuses fire, and the result is
"AI Generated" with confidence `0.9`; a single zero sample yields a
`NaN` zero-crossing rate and confidence `0.7` instead (still
"AI Generated"). -/
theorem all_zero_waveform_classification (n : ℕ) (lang : String) (hn : 2 ≤ n) :
    extract_features (List.replicate n (0:ℚ)) = some ⟨0, some 0, 0⟩ ∧
    analyze ⟨0, some 0, 0⟩ lang =
      ⟨"AI Generated", 9/10, lang,
        "Analysis suggests ai generated voice: uniform waveform structure, low zero-crossing rate"⟩ := by
  constructor
  · have h := extract_features_replicate 0 n (by omega)
    rw [if_neg (by omega : ¬ n = 1)] at h
    rw [h]
    norm_num
  · rw [analyze_language_field ⟨0, some 0, 0⟩ lang "English"]
    rw [(by decide : analyze ⟨0, some 0, 0⟩ "English" =
      ⟨"AI Generated", 9/10, "English",
        "Analysis suggests ai generated voice: uniform waveform structure, low zero-crossing rate"⟩)]

/-- C5 amended witness: the all-zero waveform `[0, 0]`. -/
theorem all_zero_waveform_classification_witness :
    2 ≤ 2 ∧
    (extract_features (List.replicate 2 (0:ℚ)) = some ⟨0, some 0, 0⟩ ∧
      analyze ⟨0, some 0, 0⟩ "English" =
        ⟨"AI Generated", 9/10, "English",
          "Analysis suggests ai generated voice: uniform waveform structure, low zero-crossing rate"⟩) :=
  ⟨by decide, all_zero_waveform_classification 2 "English" (by decide)⟩

/-- C6 (bug evidence).  An inline request with a decodable payload in an
environment where the temporary file is created but the subsequent
`tmp.write` raises: `save_base64_audio` converts the exception to
`ValueError` without deleting the file and without returning its path,
`predict` answers with the fallback, and the `finally` block sees
`path = None` — the created temporary file is never released
(`created = 1`, `released = 0`), contradicting the guaranteed-cleanup
claim. -/
theorem temp_file_leak_on_write_failure :
    predict ⟨200, true, true, none, true, true, false, none⟩
        ⟨none, some "UklGRg==", none, some "English"⟩ =
      ⟨HttpOutcome.ok (fallbackResult ⟨none, some "UklGRg==", none, some "English"⟩), 1, 0⟩ := by
  decide

/-- C8 counterexample.  A request that supplies the empty string as its
language gets `"English"` back, not the supplied string unchanged:
`req.language or "English"` treats the falsy empty string like an
absent field. -/
theorem empty_language_counterexample :
    (⟨none, some "zz", none, some ""⟩ : AudioRequest).language = some "" ∧
    (predict ⟨200, true, true, none, false, true, true, none⟩
        ⟨none, some "zz", none, some ""⟩).outcome =
      HttpOutcome.ok ⟨"AI Generated", 71/100, "English",
        "Analysis suggests ai generated voice: consistent spectral properties"⟩ ∧
    ("English" : String) ≠ "" :=
  ⟨rfl, by decide, by decide⟩

/-- C8 amended.  Every classification response (success of either label,
or fallback) carries the effective language: the supplied language when
it is a non-empty string, and `"English"` when the field is omitted,
null, or the empty string. -/
theorem language_passthrough (env : Env) (req : AudioRequest) (r : AnalysisResult)
    (hok : (predict env req).outcome = HttpOutcome.ok r) :
    r.language = effectiveLanguage req ∧
    (∀ l, req.language = some l → l ≠ "" → r.language = l) ∧
    (req.language = none → r.language = "English") ∧
    (req.language = some "" → r.language = "English") := by
  have hl : r.language = effectiveLanguage req := by
    rcases predict_ok_cases env req r hok with h | ⟨f, h⟩ <;> rw [h] <;> rfl
  refine ⟨hl, fun l hsome hne => ?_, fun hnone => ?_, fun hemp => ?_⟩
  · rw [hl]
    unfold effectiveLanguage
    rw [hsome]
    simp [hne]
  · rw [hl]
    unfold effectiveLanguage
    rw [hnone]
  · rw [hl]
    unfold effectiveLanguage
    rw [hemp]
    simp

/-- C8 amended witness: a fallback response for a request with language
`"French"` carries `"French"`. -/
theorem language_passthrough_witness :
    (predict ⟨200, true, true, none, false, true, true, none⟩
        ⟨none, some "zz", none, some "French"⟩).outcome =
      HttpOutcome.ok (fallbackResult ⟨none, some "zz", none, some "French"⟩) ∧
    (fallbackResult ⟨none, some "zz", none, some "French"⟩).language = "French" :=
  ⟨by decide,
    (language_passthrough ⟨200, true, true, none, false, true, true, none⟩
        ⟨none, some "zz", none, some "French"⟩
        (fallbackResult ⟨none, some "zz", none, some "French"⟩) (by decide)).2.1
      "French" rfl (by decide)⟩

/-- C9 counterexample.  A request supplying both fields with
`audio_url = ""` (whose scheme set is empty but which is a supplied URL
field nonetheless) is processed through the *inline* path: the response
is the inline-path fallback, and changing only the inline-side
environment (valid instead of invalid base64) changes the response — so
the request is not processed entirely through the URL path, and the
inline fallback rule does apply. -/
theorem empty_url_inline_fallback_counterexample :
    (⟨some "", some "zz", none, some "English"⟩ : AudioRequest).audio_url = some "" ∧
    (⟨some "", some "zz", none, some "English"⟩ : AudioRequest).audioBase64 = some "zz" ∧
    (predict ⟨200, true, true, some [1, -1, 1, -1], false, true, true, none⟩
        ⟨some "", some "zz", none, some "English"⟩).outcome =
      HttpOutcome.ok (fallbackResult ⟨some "", some "zz", none, some "English"⟩) ∧
    (predict ⟨200, true, true, some [1, -1, 1, -1], true, true, true, some [1, -1, 1, -1]⟩
        ⟨some "", some "zz", none, some "English"⟩).outcome ≠
      HttpOutcome.ok (fallbackResult ⟨some "", some "zz", none, some "English"⟩) :=
  ⟨rfl, rfl, by decide, by decide⟩

/-- C9 amended.  Whenever `audio_url` is a non-empty string, the request
is processed entirely through the URL path: the inline payload and
format hint are ignored (removing them does not change the result), so
the inline-path fallback rule never applies; when `audio_url` is empty
or absent, a truthy `audioBase64` is processed through the inline path
with its fallback rule. -/
theorem nonempty_url_ignores_inline (env : Env) (req : AudioRequest) (u : String)
    (hu : req.audio_url = some u) (hne : u ≠ "") :
    predict env req =
      predict env { req with audioBase64 := none, audioFormat := none } := by
  have htr : isTruthy req.audio_url = true := by
    rw [hu]
    simp [isTruthy, hne]
  have htr' : isTruthy ({ req with audioBase64 := none, audioFormat := none } :
      AudioRequest).audio_url = true := htr
  unfold predict
  rw [if_pos htr, if_pos htr']
  rfl

/-- C9 amended witness: with a well-formed `audio_url`, dropping the
inline fields leaves the result unchanged. -/
theorem nonempty_url_ignores_inline_witness :
    (⟨some "http://host/a", some "zz", some "wav", some "English"⟩ : AudioRequest).audio_url =
      some "http://host/a" ∧
    ("http://host/a" : String) ≠ "" ∧
    predict ⟨200, true, true, some [1, -1, 1, -1], false, true, true, none⟩
        ⟨some "http://host/a", some "zz", some "wav", some "English"⟩ =
      predict ⟨200, true, true, some [1, -1, 1, -1], false, true, true, none⟩
        ⟨some "http://host/a", none, none, some "English"⟩ :=
  ⟨rfl, by decide,
    nonempty_url_ignores_inline ⟨200, true, true, some [1, -1, 1, -1], false, true, true, none⟩
      ⟨some "http://host/a", some "zz", some "wav", some "English"⟩ "http://host/a"
      rfl (by decide)⟩

